import Mathlib

/-!
Verification of the client-side networking layer of
raylib_networking_example (src/client/networking.c) against its
natural-language specification.

Modelling conventions:
* Machine integers are modelled with Nat/Int; the uint8/int16 conversions
  performed by the C code are made explicit with mod-2^8 / mod-2^16
  arithmetic (toInt16, wrap16).
* Player positions are C floats, but every value the claims touch is a
  small integer on which float arithmetic is exact, so positions are
  modelled as pairs of rationals.
* An ENet packet is a byte memory together with the payload length
  dataLength.  Indices at or past dataLength model whatever bytes happen
  to sit in memory after the payload, so that an out-of-bounds read by
  the reader functions is observable in the model.
* The 16-bit wire values are laid out in host byte order by the C code;
  the model fixes little-endian.  Write and read use the same order, so
  every property below is independent of that choice.
* The globals of networking.c (server, LocalPlayerId, LastInputSend,
  Players) are gathered into an explicit ClientState record, and the one
  enet_host_service event consumed per Update call becomes an explicit
  ENetEvent argument.  MAX_PLAYERS is a macro from the missing header
  networking.h and is kept as an explicit parameter maxPlayers.
-/

namespace Networking

/-- One entry of the `Players` array: src/client/networking.c lines 63-70. -/
structure RemotePlayer where
  Active : Bool
  Position : ℚ × ℚ
deriving DecidableEq

/-- An ENet packet as seen by the reader functions: `mem` is the byte at
each address of the packet's data pointer (addresses at or past
`dataLength` model the bytes that sit after the payload in memory), and
`dataLength` is the payload length. -/
structure Packet where
  mem : ℕ → ℕ
  dataLength : ℕ

/-- Build a packet whose payload is exactly the given byte list; memory
past the payload reads as 0. -/
def mkPacket (l : List ℕ) : Packet :=
  ⟨fun i => l.getD i 0, l.length⟩

/-- Reinterpret a bit pattern (as a natural number) as a signed 16-bit
value, the effect of the C casts through `int16_t`. -/
def toInt16 (n : ℕ) : ℤ :=
  if n % 65536 < 32768 then (n % 65536 : ℤ) else (n % 65536 : ℤ) - 65536

/-- The 16-bit bit pattern of an integer, the effect of storing it into an
`int16_t` (two's complement). -/
def wrap16 (z : ℤ) : ℕ :=
  (z % 65536).toNat

/-- C truncation of a real value toward zero, the effect of a C
float-to-integer cast on the rationals the model uses. -/
def qtrunc (q : ℚ) : ℤ :=
  Int.tdiv q.num (q.den : ℤ)

/-- `ReadByte`, src/client/networking.c lines 123-139: bounds guard with
`>` (not `>=`), then read the byte at the offset and advance by 1. -/
def ReadByte (packet : Packet) (offset : ℕ) : ℕ × ℕ :=
  if offset > packet.dataLength then (0, offset)
  else (packet.mem offset % 256, offset + 1)

/-- `ReadShort`, src/client/networking.c lines 149-164: bounds guard with
`>` (not `>=`), then reinterpret the two bytes at the offset as a host
order `int16_t` and advance by 2. -/
def ReadShort (packet : Packet) (offset : ℕ) : ℤ × ℕ :=
  if offset > packet.dataLength then (0, offset)
  else (toInt16 (packet.mem offset % 256 + 256 * (packet.mem (offset + 1) % 256)), offset + 2)

/-- `ReadPosition`, src/client/networking.c lines 174-181: two ReadShort
calls (x then y), converted to the float position. -/
def ReadPosition (packet : Packet) (offset : ℕ) : (ℚ × ℚ) × ℕ :=
  let x := ReadShort packet offset
  let y := ReadShort packet x.2
  (((x.1 : ℚ), (y.1 : ℚ)), y.2)

/-- NetworkCommands, src/client/networking.c lines 79-95. -/
def AcceptPlayer : ℕ := 1

def AddPlayer : ℕ := 2

def RemovePlayer : ℕ := 3

def UpdatePlayer : ℕ := 4

def UpdateInput : ℕ := 5

/-- The 5-byte buffer built by the send block of `Update`,
src/client/networking.c lines 243-246: command tag `UpdateInput`, then x
and y truncated to `int16_t` and stored in host (here little-endian) byte
order. -/
def WriteUpdateInput (pos : ℚ × ℚ) : List ℕ :=
  [UpdateInput,
   wrap16 (qtrunc pos.1) % 256, wrap16 (qtrunc pos.1) / 256,
   wrap16 (qtrunc pos.2) % 256, wrap16 (qtrunc pos.2) / 256]

/-- Decode the payload of an UpdateInput buffer: skip the tag byte with
ReadByte, then read x and y with ReadShort. -/
def DecodeUpdateInput (l : List ℕ) : ℤ × ℤ :=
  let p := mkPacket l
  let c := ReadByte p 0
  let x := ReadShort p c.2
  let y := ReadShort p x.2
  (x.1, y.1)

/-- `HandleAddPlayer`, src/client/networking.c lines 187-200: read the id
byte, reject ids `>= MAX_PLAYERS` or equal to the local id, otherwise mark
the slot active and set its position from the packet. -/
def HandleAddPlayer (maxPlayers : ℕ) (localId : ℤ) (players : ℕ → RemotePlayer)
    (packet : Packet) (offset : ℕ) : ℕ → RemotePlayer :=
  let rb := ReadByte packet offset
  let remotePlayer := rb.1
  if maxPlayers ≤ remotePlayer ∨ (remotePlayer : ℤ) = localId then players
  else
    let pos := (ReadPosition packet rb.2).1
    fun i => if i = remotePlayer then ⟨true, pos⟩ else players i

/-- `HandleRemovePlayer`, src/client/networking.c lines 203-212: read the
id byte, reject ids `>= MAX_PLAYERS` or equal to the local id, otherwise
clear the slot's Active flag (the stored position is left as is). -/
def HandleRemovePlayer (maxPlayers : ℕ) (localId : ℤ) (players : ℕ → RemotePlayer)
    (packet : Packet) (offset : ℕ) : ℕ → RemotePlayer :=
  let rb := ReadByte packet offset
  let remotePlayer := rb.1
  if maxPlayers ≤ remotePlayer ∨ (remotePlayer : ℤ) = localId then players
  else
    fun i => if i = remotePlayer then ⟨false, (players i).Position⟩ else players i

/-- `HandleUpdatePlayer`, src/client/networking.c lines 215-227: read the
id byte, reject ids `>= MAX_PLAYERS`, equal to the local id, or whose slot
is inactive (the slot test is short-circuited behind the bounds test),
otherwise overwrite the slot's position from the packet. -/
def HandleUpdatePlayer (maxPlayers : ℕ) (localId : ℤ) (players : ℕ → RemotePlayer)
    (packet : Packet) (offset : ℕ) : ℕ → RemotePlayer :=
  let rb := ReadByte packet offset
  let remotePlayer := rb.1
  if maxPlayers ≤ remotePlayer ∨ (remotePlayer : ℤ) = localId
      ∨ (players remotePlayer).Active = false then players
  else
    let pos := (ReadPosition packet rb.2).1
    fun i => if i = remotePlayer then { players i with Position := pos } else players i

/-- `InputUpdateInterval`, src/client/networking.c line 60.  The source
computes `1.0f/20.0f`; the float rounding of that literal differs from
1/20 by less than 2^-30, far below any time value the claims involve, so
the model uses the exact rational. -/
def InputUpdateInterval : ℚ := 1 / 20

/-- The mutable globals of src/client/networking.c gathered into one
record: `server` is whether the server pointer is non-NULL (line 49),
`LocalPlayerId` (line 43, -1 while unjoined), `LastInputSend` (line 57,
initially -100) and the `Players` array (line 76).  `Players` is indexed
by an unbounded natural so that a write past `MAX_PLAYERS` slots is
observable in the model. -/
structure ClientState where
  server : Bool
  LocalPlayerId : ℤ
  LastInputSend : ℚ
  Players : ℕ → RemotePlayer

/-- The zero-initialised `Players` array, src/client/networking.c line 76. -/
def InitialPlayers : ℕ → RemotePlayer := fun _ => ⟨false, (0, 0)⟩

/-- The single event an `Update` call obtains from `enet_host_service`
(src/client/networking.c line 265): nothing, a received packet, or a
disconnect notice. -/
inductive ENetEvent where
  | noEvent : ENetEvent
  | receive : Packet → ENetEvent
  | disconnect : ENetEvent

/-- Result of one `Update` call: the new global state, the list of
buffers passed to `enet_peer_send` (the source has a single straight-line
send site), and whether `enet_packet_destroy` was called on the received
packet during this call. -/
structure UpdateResult where
  state : ClientState
  sent : List (List ℕ)
  destroyed : Bool

/-- The send block of `Update`, src/client/networking.c lines 240-259:
when `LocalPlayerId >= 0 && now - LastInputSend > InputUpdateInterval`,
build the UpdateInput buffer from the local slot's position, send it, and
record `LastInputSend = now`. -/
def SendPhase (st : ClientState) (now : ℚ) : ClientState × List (List ℕ) :=
  if 0 ≤ st.LocalPlayerId ∧ now - st.LastInputSend > InputUpdateInterval then
    ({ st with LastInputSend := now },
     [WriteUpdateInput (st.Players st.LocalPlayerId.toNat).Position])
  else (st, [])

/-- The ENET_EVENT_TYPE_RECEIVE case of `Update`, src/client/networking.c
lines 271-332, returning the new state and whether `enet_packet_destroy`
was reached.  Note the two `break` statements at lines 275 and 295: both
jump out of the enclosing switch, past the `enet_packet_destroy` call at
line 330. -/
def ReceivePhase (maxPlayers : ℕ) (st : ClientState) (packet : Packet) :
    ClientState × Bool :=
  if packet.dataLength < 1 then (st, false)
  else
    let c := ReadByte packet 0
    if st.LocalPlayerId = -1 then
      if c.1 = AcceptPlayer then
        let rb := ReadByte packet c.2
        if (rb.1 : ℤ) < 0 ∨ (maxPlayers : ℤ) < (rb.1 : ℤ) then (st, false)
        else
          ({ st with
              LocalPlayerId := (rb.1 : ℤ),
              LastInputSend := -InputUpdateInterval,
              Players := fun i => if i = rb.1 then ⟨true, (100, 100)⟩ else st.Players i },
           true)
      else (st, true)
    else
      if c.1 = AddPlayer then
        ({ st with Players := HandleAddPlayer maxPlayers st.LocalPlayerId st.Players packet c.2 }, true)
      else if c.1 = RemovePlayer then
        ({ st with Players := HandleRemovePlayer maxPlayers st.LocalPlayerId st.Players packet c.2 }, true)
      else if c.1 = UpdatePlayer then
        ({ st with Players := HandleUpdatePlayer maxPlayers st.LocalPlayerId st.Players packet c.2 }, true)
      else (st, true)

/-- `Update`, src/client/networking.c lines 230-341: bail out when there
is no server, run the send block, then process the one polled event; a
disconnect clears `server` and `LocalPlayerId` (lines 335-338). -/
def Update (maxPlayers : ℕ) (st : ClientState) (now : ℚ) (event : ENetEvent) :
    UpdateResult :=
  if st.server = false then ⟨st, [], false⟩
  else
    let ph := SendPhase st now
    match event with
    | ENetEvent.noEvent => ⟨ph.1, ph.2, false⟩
    | ENetEvent.disconnect =>
        ⟨{ ph.1 with server := false, LocalPlayerId := -1 }, ph.2, false⟩
    | ENetEvent.receive packet =>
        let rp := ReceivePhase maxPlayers ph.1 packet
        ⟨rp.1, ph.2, rp.2⟩

/-- Verification harness: iterate `Update` the way the per-frame driver
calls it, with an unchanged clock, feeding one polled event per call and
collecting everything sent. -/
def TickLoop (m : ℕ) (now : ℚ) (st : ClientState) (events : List ENetEvent) :
    ClientState × List (List ℕ) :=
  match events with
  | [] => (st, [])
  | ev :: rest =>
      let r := Update m st now ev
      let r2 := TickLoop m now r.state rest
      (r2.1, r.sent ++ r2.2)

/-- `UpdateLocalPlayer`, src/client/networking.c lines 373-395: no-op
while unjoined, otherwise add the movement delta to the local slot's
position and clamp each axis with the four sequential comparisons of the
source.  The field and player size macros live in the missing header
networking.h and are kept as parameters. -/
def UpdateLocalPlayer (fieldSizeWidth fieldSizeHeight playerSize : ℚ) (localId : ℤ)
    (players : ℕ → RemotePlayer) (movementDelta : ℚ × ℚ) : ℕ → RemotePlayer :=
  if localId < 0 then players
  else
    let x0 := (players localId.toNat).Position.1 + movementDelta.1
    let y0 := (players localId.toNat).Position.2 + movementDelta.2
    let x1 := if x0 < 0 then 0 else x0
    let y1 := if y0 < 0 then 0 else y0
    let x2 := if x1 > fieldSizeWidth - playerSize then fieldSizeWidth - playerSize else x1
    let y2 := if y1 > fieldSizeHeight - playerSize then fieldSizeHeight - playerSize else y1
    fun i => if i = localId.toNat then { players i with Position := (x2, y2) } else players i

/-! ### Helper lemmas -/

theorem interval_pos : 0 < InputUpdateInterval := by
  norm_num [InputUpdateInterval]

theorem readByte_zero_snd (p : Packet) : (ReadByte p 0).2 = 1 := by
  simp [ReadByte]

theorem sendPhase_not_sent (st : ClientState) (now : ℚ)
    (h : ¬(0 ≤ st.LocalPlayerId ∧ now - st.LastInputSend > InputUpdateInterval)) :
    SendPhase st now = (st, []) := by
  unfold SendPhase
  rw [if_neg h]

theorem sendPhase_unjoined (st : ClientState) (now : ℚ) (h : st.LocalPlayerId = -1) :
    SendPhase st now = (st, []) := by
  refine sendPhase_not_sent st now ?_
  rintro ⟨h1, -⟩
  rw [h] at h1
  norm_num at h1

theorem sendPhase_fst_server (st : ClientState) (now : ℚ) :
    (SendPhase st now).1.server = st.server := by
  unfold SendPhase
  split <;> rfl

theorem sendPhase_fst_localId (st : ClientState) (now : ℚ) :
    (SendPhase st now).1.LocalPlayerId = st.LocalPlayerId := by
  unfold SendPhase
  split <;> rfl

theorem sendPhase_fst_players (st : ClientState) (now : ℚ) :
    (SendPhase st now).1.Players = st.Players := by
  unfold SendPhase
  split <;> rfl

theorem receivePhase_fst_server (m : ℕ) (st : ClientState) (p : Packet) :
    (ReceivePhase m st p).1.server = st.server := by
  simp only [ReceivePhase]
  split_ifs <;> rfl

theorem receivePhase_joined_localId (m : ℕ) (st : ClientState) (p : Packet)
    (h : st.LocalPlayerId ≠ -1) :
    (ReceivePhase m st p).1.LocalPlayerId = st.LocalPlayerId := by
  simp only [ReceivePhase]
  split_ifs <;> simp_all

theorem receivePhase_joined_lastInputSend (m : ℕ) (st : ClientState) (p : Packet)
    (h : st.LocalPlayerId ≠ -1) :
    (ReceivePhase m st p).1.LastInputSend = st.LastInputSend := by
  simp only [ReceivePhase]
  split_ifs <;> simp_all

theorem update_sent_eq (m : ℕ) (st : ClientState) (now : ℚ) (ev : ENetEvent)
    (h : st.server = true) :
    (Update m st now ev).sent = (SendPhase st now).2 := by
  unfold Update
  rw [h]
  cases ev <;> rfl

theorem update_state_noEvent (m : ℕ) (st : ClientState) (now : ℚ) (h : st.server = true) :
    (Update m st now ENetEvent.noEvent).state = (SendPhase st now).1 := by
  unfold Update
  rw [if_neg (show ¬ st.server = false by simp [h])]

theorem update_state_disconnect (m : ℕ) (st : ClientState) (now : ℚ) (h : st.server = true) :
    (Update m st now ENetEvent.disconnect).state =
      { (SendPhase st now).1 with server := false, LocalPlayerId := -1 } := by
  unfold Update
  rw [if_neg (show ¬ st.server = false by simp [h])]

theorem update_state_receive (m : ℕ) (st : ClientState) (now : ℚ) (p : Packet)
    (h : st.server = true) :
    (Update m st now (ENetEvent.receive p)).state =
      (ReceivePhase m (SendPhase st now).1 p).1 := by
  unfold Update
  rw [if_neg (show ¬ st.server = false by simp [h])]

theorem sendPhase_sent (st : ClientState) (now : ℚ)
    (h : 0 ≤ st.LocalPlayerId ∧ now - st.LastInputSend > InputUpdateInterval) :
    SendPhase st now =
      ({ st with LastInputSend := now },
       [WriteUpdateInput ((st.Players st.LocalPlayerId.toNat).Position)]) := by
  unfold SendPhase
  rw [if_pos h]

theorem wrap16_lt (z : ℤ) : wrap16 z < 65536 := by
  unfold wrap16
  have h0 : 0 ≤ z % 65536 := Int.emod_nonneg z (by norm_num)
  have h1 : z % 65536 < 65536 := Int.emod_lt_of_pos z (by norm_num)
  omega

theorem toInt16_wrap16 (z : ℤ) (h1 : -32768 ≤ z) (h2 : z ≤ 32767) :
    toInt16 (wrap16 z) = z := by
  unfold toInt16 wrap16
  have h0 : 0 ≤ z % 65536 := Int.emod_nonneg z (by norm_num)
  have h3 : z % 65536 < 65536 := Int.emod_lt_of_pos z (by norm_num)
  have h4 : z % 65536 = z ∨ z % 65536 = z + 65536 := by omega
  split <;> omega

theorem decodeUpdateInput_bytes (b1 b2 b3 b4 : ℕ) :
    DecodeUpdateInput [UpdateInput, b1, b2, b3, b4] =
      (toInt16 (b1 % 256 + 256 * (b2 % 256)), toInt16 (b3 % 256 + 256 * (b4 % 256))) := by
  simp [DecodeUpdateInput, mkPacket, ReadByte, ReadShort, List.getD, UpdateInput]

/-! ### Claims -/

/-- C1: the claim says an AcceptPlayer id outside `[0, MAX_PLAYERS)` is
rejected while unjoined, in particular the boundary id `MAX_PLAYERS`
itself.  The code's guard (line 292) uses `>` instead of `>=`, so with
`MAX_PLAYERS = 8` an AcceptPlayer packet carrying id 8 is accepted: the
session becomes joined with `LocalPlayerId = 8`, contradicting the claim
(ids strictly above `MAX_PLAYERS` are rejected as claimed). -/
theorem C1_boundary_accept_joins :
    (Update 8 ⟨true, -1, -100, InitialPlayers⟩ 0
        (ENetEvent.receive (mkPacket [AcceptPlayer, 8]))).state.LocalPlayerId = 8
    ∧ (Update 8 ⟨true, -1, -100, InitialPlayers⟩ 0
        (ENetEvent.receive (mkPacket [AcceptPlayer, 9]))).state.LocalPlayerId = -1 := by
  constructor
  · decide
  · decide

/-- C2: the claim says the received packet is released exactly once on
every code path, including `dataLength < 1`.  The `break` statements at
lines 275 and 295 jump out of the event switch past the
`enet_packet_destroy` call at line 330, so on a zero-length packet and on
an out-of-range AcceptPlayer id the packet is never destroyed, while an
ordinary accepted packet is: the code leaks on those two paths,
contradicting the claim. -/
theorem C2_zero_length_packet_leak :
    (Update 8 ⟨true, -1, -100, InitialPlayers⟩ 0
        (ENetEvent.receive (mkPacket []))).destroyed = false
    ∧ (Update 8 ⟨true, -1, -100, InitialPlayers⟩ 0
        (ENetEvent.receive (mkPacket [AcceptPlayer, 200]))).destroyed = false
    ∧ (Update 8 ⟨true, -1, -100, InitialPlayers⟩ 0
        (ENetEvent.receive (mkPacket [AcceptPlayer, 3]))).destroyed = true := by
  refine ⟨?_, ?_, ?_⟩
  · decide
  · decide
  · decide

/-- C4: the claim says every Protocol Handler command carrying an id
outside `[0, MAX_PLAYERS)` leaves the Player Table completely unchanged.
Because of the `>` guard at line 292, an AcceptPlayer with the
out-of-range id `MAX_PLAYERS = 8` writes `Players[8]` — one slot past the
8-entry table (an out-of-bounds write in C): in the model the backing
store at index 8 changes from inactive to active at (100, 100),
contradicting the claim.  (The three joined-state handlers do satisfy it;
see the bounds theorem for C10.) -/
theorem C4_boundary_accept_oob_write :
    (Update 8 ⟨true, -1, -100, InitialPlayers⟩ 0
        (ENetEvent.receive (mkPacket [AcceptPlayer, 8]))).state.Players 8
      = ⟨true, (100, 100)⟩
    ∧ InitialPlayers 8 = ⟨false, (0, 0)⟩ := by
  constructor
  · decide
  · decide

/-- C5: the claim says a read whose cursor is at or past the logical end
(`cursor >= dataLength`) returns 0 without advancing, and no byte past
the logical end is ever read.  The guards at lines 126 and 152 use `>`
instead of `>=`: on a 1-byte packet whose following memory byte is 42,
`ReadByte` at cursor 1 (= dataLength) returns that out-of-bounds byte 42
and advances to 2, and `ReadShort` at the last valid index 0 returns
7 + 256*42 = 10759, which depends on the byte past the end — both
contradict the claim. -/
theorem C5_oob_read_one_past_end :
    ReadByte ⟨fun i => if i = 0 then 7 else 42, 1⟩ 1 = (42, 2)
    ∧ ReadShort ⟨fun i => if i = 0 then 7 else 42, 1⟩ 0 = (10759, 2)
    ∧ ReadByte ⟨fun i => if i = 0 then 7 else 42, 1⟩ 2 = (0, 2) := by
  refine ⟨?_, ?_, ?_⟩
  · decide
  · decide
  · decide

/-- C7 counterexample: the claim quantifies over every position, but a
decoded `readShort` value always lies in the signed 16-bit range, so a
position whose truncated component does not fit (here x = 40000) cannot
round-trip: the encode/decode pipeline yields -25536, not 40000. -/
theorem C7_roundtrip_fails_out_of_range :
    DecodeUpdateInput (WriteUpdateInput (40000, 100))
      ≠ (qtrunc (40000, (100 : ℚ)).1, qtrunc (40000, (100 : ℚ)).2) := by
  decide

/-- C7 (amended): for every position whose integer-truncated components
fit in the signed 16-bit range, serializing with `writeUpdateInput` and
decoding the payload with `readShort` twice after skipping the tag byte
yields exactly the integer-truncated components. -/
theorem C7_writeUpdateInput_roundtrip (pos : ℚ × ℚ)
    (hx1 : -32768 ≤ qtrunc pos.1) (hx2 : qtrunc pos.1 ≤ 32767)
    (hy1 : -32768 ≤ qtrunc pos.2) (hy2 : qtrunc pos.2 ≤ 32767) :
    DecodeUpdateInput (WriteUpdateInput pos) = (qtrunc pos.1, qtrunc pos.2) := by
  have hx := wrap16_lt (qtrunc pos.1)
  have hy := wrap16_lt (qtrunc pos.2)
  have e1 : wrap16 (qtrunc pos.1) % 256 % 256
      + 256 * (wrap16 (qtrunc pos.1) / 256 % 256) = wrap16 (qtrunc pos.1) := by omega
  have e2 : wrap16 (qtrunc pos.2) % 256 % 256
      + 256 * (wrap16 (qtrunc pos.2) / 256 % 256) = wrap16 (qtrunc pos.2) := by omega
  rw [WriteUpdateInput, decodeUpdateInput_bytes, e1, e2,
    toInt16_wrap16 _ hx1 hx2, toInt16_wrap16 _ hy1 hy2]

/-- C7 witness: the in-range position (-5, 700) round-trips to itself. -/
theorem C7_writeUpdateInput_roundtrip_witness :
    DecodeUpdateInput (WriteUpdateInput (-5, 700)) = (-5, 700) := by
  exact C7_writeUpdateInput_roundtrip (-5, 700)
    (by decide) (by decide) (by decide) (by decide)

/-- C3: while unjoined, an inbound AcceptPlayer whose id byte is in
`[0, MAX_PLAYERS)` joins the session (`LocalPlayerId` becomes the id),
marks that slot active at position (100, 100), and sets `LastInputSend`
to `-InputUpdateInterval` so that any later tick with a positive clock
sends an input update immediately.  The transition happens exactly once:
once joined, a further AcceptPlayer packet leaves `LocalPlayerId`
unchanged. -/
theorem C3_accept_in_range_joins (maxPlayers : ℕ) (st st2 : ClientState) (p : Packet)
    (id : ℕ) (now now2 : ℚ) (event2 : ENetEvent)
    (hs : st.server = true) (hu : st.LocalPlayerId = -1)
    (hlen : 1 ≤ p.dataLength) (hcmd : (ReadByte p 0).1 = AcceptPlayer)
    (hid : (ReadByte p 1).1 = id) (hrange : id < maxPlayers) (hnow2 : 0 < now2)
    (hs2 : st2.server = true) (hj2 : st2.LocalPlayerId = (id : ℤ)) :
    (Update maxPlayers st now (ENetEvent.receive p)).state.LocalPlayerId = (id : ℤ)
    ∧ (Update maxPlayers st now (ENetEvent.receive p)).state.Players id = ⟨true, (100, 100)⟩
    ∧ (Update maxPlayers st now (ENetEvent.receive p)).state.LastInputSend
        = -InputUpdateInterval
    ∧ (Update maxPlayers
        (Update maxPlayers st now (ENetEvent.receive p)).state now2 event2).sent ≠ []
    ∧ (Update maxPlayers st2 now2 (ENetEvent.receive p)).state.LocalPlayerId = (id : ℤ) := by
  have hguard : ¬((id : ℤ) < 0 ∨ (maxPlayers : ℤ) < (id : ℤ)) := by
    rintro (h | h)
    · omega
    · have hm : (id : ℤ) < (maxPlayers : ℤ) := by exact_mod_cast hrange
      omega
  have hrec : ReceivePhase maxPlayers st p =
      ({ st with
          LocalPlayerId := (id : ℤ),
          LastInputSend := -InputUpdateInterval,
          Players := fun i => if i = id then ⟨true, (100, 100)⟩ else st.Players i },
        true) := by
    simp only [ReceivePhase, readByte_zero_snd, hcmd, hu, hid]
    rw [if_neg (show ¬ p.dataLength < 1 by omega)]
    simp only [if_pos trivial]
    rw [if_neg hguard]
  have hupd : (Update maxPlayers st now (ENetEvent.receive p)).state =
      { st with
          LocalPlayerId := (id : ℤ),
          LastInputSend := -InputUpdateInterval,
          Players := fun i => if i = id then ⟨true, (100, 100)⟩ else st.Players i } := by
    unfold Update
    rw [if_neg (show ¬ st.server = false by simp [hs])]
    simp only [sendPhase_unjoined st now hu, hrec]
  refine ⟨?_, ?_, ?_, ?_, ?_⟩
  · rw [hupd]
  · rw [hupd]
    simp
  · rw [hupd]
  · rw [hupd]
    rw [update_sent_eq _ _ _ _ (by exact hs)]
    have hsend : (0 : ℤ) ≤ (id : ℤ) ∧
        now2 - (-InputUpdateInterval) > InputUpdateInterval := by
      constructor
      · exact Int.ofNat_nonneg id
      · rw [InputUpdateInterval]
        linarith
    unfold SendPhase
    rw [if_pos hsend]
    simp
  · unfold Update
    rw [hs2]
    simp only [Bool.true_eq_false, if_false]
    have hj  : (SendPhase st2 now2).1.LocalPlayerId = (id : ℤ) := by
      rw [sendPhase_fst_localId, hj2]
    have hne : (SendPhase st2 now2).1.LocalPlayerId ≠ -1 := by
      rw [hj]
      omega
    rw [receivePhase_joined_localId _ _ _ hne, hj]

/-- C3 witness: with `MAX_PLAYERS = 8`, accepting id 3 from the packet
[1, 3] while unjoined joins the session at slot 3 with position
(100, 100), seeds the timer to `-InputUpdateInterval`, the next tick at
time 1 sends, and a joined client receiving the same packet keeps its
id. -/
theorem C3_accept_in_range_joins_witness :
    (Update 8 ⟨true, -1, -100, InitialPlayers⟩ 0
        (ENetEvent.receive (mkPacket [AcceptPlayer, 3]))).state.LocalPlayerId = 3
    ∧ (Update 8 ⟨true, -1, -100, InitialPlayers⟩ 0
        (ENetEvent.receive (mkPacket [AcceptPlayer, 3]))).state.Players 3 = ⟨true, (100, 100)⟩
    ∧ (Update 8 ⟨true, -1, -100, InitialPlayers⟩ 0
        (ENetEvent.receive (mkPacket [AcceptPlayer, 3]))).state.LastInputSend
        = -InputUpdateInterval
    ∧ (Update 8
        (Update 8 ⟨true, -1, -100, InitialPlayers⟩ 0
          (ENetEvent.receive (mkPacket [AcceptPlayer, 3]))).state 1
        ENetEvent.noEvent).sent ≠ []
    ∧ (Update 8 ⟨true, 3, -100, InitialPlayers⟩ 1
        (ENetEvent.receive (mkPacket [AcceptPlayer, 3]))).state.LocalPlayerId = 3 :=
  C3_accept_in_range_joins 8 ⟨true, -1, -100, InitialPlayers⟩ ⟨true, 3, -100, InitialPlayers⟩
    (mkPacket [AcceptPlayer, 3]) 3 0 1 ENetEvent.noEvent
    rfl rfl (by decide) (by decide) (by decide) (by decide) (by decide) rfl (by decide)

theorem update_no_resend (m : ℕ) (now : ℚ) (st : ClientState)
    (h : st.server = false ∨ (st.LastInputSend = now ∧ 0 ≤ st.LocalPlayerId))
    (ev : ENetEvent) :
    (Update m st now ev).sent = []
    ∧ ((Update m st now ev).state.server = false
        ∨ ((Update m st now ev).state.LastInputSend = now
            ∧ 0 ≤ (Update m st now ev).state.LocalPlayerId)) := by
  cases hs : st.server
  · unfold Update
    rw [if_pos hs]
    exact ⟨rfl, Or.inl hs⟩
  · have hj : st.LastInputSend = now ∧ 0 ≤ st.LocalPlayerId := by
      rcases h with hf | hj
      · rw [hs] at hf
        exact absurd hf (by simp)
      · exact hj
    have hns : ¬(0 ≤ st.LocalPlayerId ∧ now - st.LastInputSend > InputUpdateInterval) := by
      rintro ⟨-, hgt⟩
      rw [hj.1, sub_self] at hgt
      exact absurd hgt (by simp [InputUpdateInterval])
    have hsp := sendPhase_not_sent st now hns
    refine ⟨by rw [update_sent_eq m st now ev hs, hsp], ?_⟩
    cases ev with
    | noEvent =>
        rw [update_state_noEvent m st now hs, hsp]
        exact Or.inr hj
    | disconnect =>
        rw [update_state_disconnect m st now hs, hsp]
        exact Or.inl rfl
    | receive p =>
        rw [update_state_receive m st now p hs, hsp]
        have hne : st.LocalPlayerId ≠ -1 := by
          have := hj.2
          omega
        exact Or.inr ⟨by rw [receivePhase_joined_lastInputSend m st p hne]; exact hj.1,
          by rw [receivePhase_joined_localId m st p hne]; exact hj.2⟩

theorem tickLoop_no_send (m : ℕ) (now : ℚ) (events : List ENetEvent) :
    ∀ st : ClientState,
      st.server = false ∨ (st.LastInputSend = now ∧ 0 ≤ st.LocalPlayerId) →
      (TickLoop m now st events).2 = [] := by
  induction events with
  | nil =>
      intro st h
      rfl
  | cons ev rest ih =>
      intro st h
      have h1 := update_no_resend m now st h ev
      simp only [TickLoop]
      rw [h1.1, ih _ h1.2]
      rfl

/-- C6: a tick sends at most one packet — when anything is sent it is
exactly one UpdateInput buffer built from the local slot — and it sends
only when the session is joined and `now - LastInputSend >
InputUpdateInterval`; on send `LastInputSend` becomes `now`, so any
number of further ticks at the same `now`, whatever events they poll,
send nothing. -/
theorem C6_tick_rate_limit (m : ℕ) (st : ClientState) (now : ℚ) (ev : ENetEvent)
    (evs : List ENetEvent) (h : (Update m st now ev).sent ≠ []) :
    (Update m st now ev).sent
      = [WriteUpdateInput ((st.Players st.LocalPlayerId.toNat).Position)]
    ∧ 0 ≤ st.LocalPlayerId
    ∧ now - st.LastInputSend > InputUpdateInterval
    ∧ (Update m st now ev).state.LastInputSend = now
    ∧ (TickLoop m now (Update m st now ev).state evs).2 = [] := by
  have hserver : st.server = true := by
    cases hs : st.server
    · exfalso
      apply h
      unfold Update
      rw [if_pos hs]
    · rfl
  have hsent := update_sent_eq m st now ev hserver
  have hsend : 0 ≤ st.LocalPlayerId ∧ now - st.LastInputSend > InputUpdateInterval := by
    by_cases hc : 0 ≤ st.LocalPlayerId ∧ now - st.LastInputSend > InputUpdateInterval
    · exact hc
    · exfalso
      apply h
      rw [hsent, sendPhase_not_sent st now hc]
  have hsp := sendPhase_sent st now hsend
  have hkey : (Update m st now ev).state.server = false
      ∨ ((Update m st now ev).state.LastInputSend = now
          ∧ 0 ≤ (Update m st now ev).state.LocalPlayerId) := by
    cases ev with
    | noEvent =>
        rw [update_state_noEvent m st now hserver, hsp]
        exact Or.inr ⟨rfl, hsend.1⟩
    | disconnect =>
        rw [update_state_disconnect m st now hserver, hsp]
        exact Or.inl rfl
    | receive p =>
        rw [update_state_receive m st now p hserver, hsp]
        have hne : ({ st with LastInputSend := now } : ClientState).LocalPlayerId ≠ -1 := by
          have := hsend.1
          intro hcon
          rw [show ({ st with LastInputSend := now } : ClientState).LocalPlayerId
            = st.LocalPlayerId from rfl] at hcon
          omega
        exact Or.inr
          ⟨by rw [receivePhase_joined_lastInputSend m _ p hne],
           by rw [receivePhase_joined_localId m _ p hne]; exact hsend.1⟩
  have hlis : (Update m st now ev).state.LastInputSend = now := by
    cases ev with
    | noEvent =>
        rw [update_state_noEvent m st now hserver, hsp]
    | disconnect =>
        rw [update_state_disconnect m st now hserver, hsp]
    | receive p =>
        rw [update_state_receive m st now p hserver, hsp]
        have hne : ({ st with LastInputSend := now } : ClientState).LocalPlayerId ≠ -1 := by
          have := hsend.1
          intro hcon
          rw [show ({ st with LastInputSend := now } : ClientState).LocalPlayerId
            = st.LocalPlayerId from rfl] at hcon
          omega
        rw [receivePhase_joined_lastInputSend m _ p hne]
  refine ⟨by rw [hsent, hsp], hsend.1, hsend.2, hlis, tickLoop_no_send m now evs _ hkey⟩

/-- C6 witness: a joined client at slot 0 whose last send was at -100
sends exactly its one UpdateInput buffer at time 0, records the send
time, and two further ticks at time 0 (one empty poll, one disconnect)
send nothing. -/
theorem C6_tick_rate_limit_witness :
    (Update 8 ⟨true, 0, -100, InitialPlayers⟩ 0 ENetEvent.noEvent).sent
      = [WriteUpdateInput (0, 0)]
    ∧ (0 : ℤ) ≤ 0
    ∧ (0 : ℚ) - (-100) > InputUpdateInterval
    ∧ (Update 8 ⟨true, 0, -100, InitialPlayers⟩ 0 ENetEvent.noEvent).state.LastInputSend = 0
    ∧ (TickLoop 8 0 (Update 8 ⟨true, 0, -100, InitialPlayers⟩ 0 ENetEvent.noEvent).state
        [ENetEvent.noEvent, ENetEvent.disconnect]).2 = [] :=
  C6_tick_rate_limit 8 ⟨true, 0, -100, InitialPlayers⟩ 0 ENetEvent.noEvent
    [ENetEvent.noEvent, ENetEvent.disconnect]
    (by
      rw [update_sent_eq 8 _ 0 ENetEvent.noEvent rfl,
        sendPhase_sent _ 0 ⟨by norm_num, by norm_num [InputUpdateInterval]⟩]
      simp)

theorem ite_neg_clamp (a : ℚ) : (if a < 0 then (0 : ℚ) else a) = max a 0 := by
  rcases lt_or_le a 0 with h | h
  · rw [if_pos h, max_eq_right h.le]
  · rw [if_neg (not_lt.mpr h), max_eq_left h]

theorem ite_hi_clamp (a hi : ℚ) : (if a > hi then hi else a) = min a hi := by
  rcases le_or_lt a hi with h | h
  · rw [if_neg (not_lt.mpr h), min_eq_left h]
  · rw [if_pos h, min_eq_right h.le]

/-- C8: `UpdateLocalPlayer` is a no-op while unjoined; otherwise it adds
the delta to the local slot's position and clamps each axis to
`[0, fieldWidth - playerSize]` resp. `[0, fieldHeight - playerSize]`
(as `min (max _ 0) bound`), leaving every other slot unchanged; with the
spec's field 800x600 and player size 32, a delta driving the position to
(-5, 700) yields (0, 568). -/
theorem C8_updateLocalPlayer_clamps (fw fh ps : ℚ) (localId : ℤ)
    (players : ℕ → RemotePlayer) (delta : ℚ × ℚ) :
    UpdateLocalPlayer fw fh ps localId players delta =
      (if localId < 0 then players
       else fun i =>
         if i = localId.toNat then
           { players i with
             Position :=
               (min (max ((players localId.toNat).Position.1 + delta.1) 0) (fw - ps),
                min (max ((players localId.toNat).Position.2 + delta.2) 0) (fh - ps)) }
         else players i)
    ∧ (UpdateLocalPlayer 800 600 32 0 (fun _ => ⟨true, (0, 0)⟩) (-5, 700) 0).Position
        = (0, 568) := by
  constructor
  · unfold UpdateLocalPlayer
    by_cases hl : localId < 0
    · rw [if_pos hl, if_pos hl]
    · rw [if_neg hl, if_neg hl]
      simp only [ite_neg_clamp, ite_hi_clamp]
  · norm_num [UpdateLocalPlayer]

/-- C9 counterexample: the claim says a disconnect event resets
`lastInputSentAt` as part of clearing SessionState; in the code the
disconnect case (lines 335-338) only clears `server` and `LocalPlayerId`,
so from a joined state whose last send was at time 5 the timer still
reads 5 after the disconnect instead of any reset value (startup value
is -100). -/
theorem C9_disconnect_keeps_timer :
    (Update 8 ⟨true, 3, 5, InitialPlayers⟩ 5 ENetEvent.disconnect).state.LocalPlayerId = -1
    ∧ (Update 8 ⟨true, 3, 5, InitialPlayers⟩ 5 ENetEvent.disconnect).state.server = false
    ∧ (Update 8 ⟨true, 3, 5, InitialPlayers⟩ 5 ENetEvent.disconnect).state.LastInputSend = 5
    ∧ (5 : ℚ) ≠ -100 := by
  norm_num [Update, SendPhase, InputUpdateInterval]

/-- C9 (amended): a disconnect event clears `LocalPlayerId` (unjoined)
and the connection, and changes nothing else: the player table is
untouched and `lastInputSentAt` keeps its value (here stated for a tick
whose send condition does not fire, isolating the disconnect handling);
nothing is sent and no packet is destroyed. -/
theorem C9_disconnect_clears_session (m : ℕ) (st : ClientState) (now : ℚ)
    (hs : st.server = true)
    (hns : ¬(0 ≤ st.LocalPlayerId ∧ now - st.LastInputSend > InputUpdateInterval)) :
    (Update m st now ENetEvent.disconnect).state.LocalPlayerId = -1
    ∧ (Update m st now ENetEvent.disconnect).state.server = false
    ∧ (Update m st now ENetEvent.disconnect).state.Players = st.Players
    ∧ (Update m st now ENetEvent.disconnect).state.LastInputSend = st.LastInputSend
    ∧ (Update m st now ENetEvent.disconnect).destroyed = false
    ∧ (Update m st now ENetEvent.disconnect).sent = [] := by
  have h1 : (Update m st now ENetEvent.disconnect).state =
      { st with server := false, LocalPlayerId := -1 } := by
    rw [update_state_disconnect m st now hs, sendPhase_not_sent st now hns]
  refine ⟨by rw [h1], by rw [h1], by rw [h1], by rw [h1], ?_, ?_⟩
  · unfold Update
    rw [if_neg (show ¬ st.server = false by simp [hs])]
  · rw [update_sent_eq m st now ENetEvent.disconnect hs, sendPhase_not_sent st now hns]

/-- C9 amended witness: disconnecting the joined state (id 3, timer 5) at
time 5 clears the id and connection and leaves the table and the timer
value 5 as they were. -/
theorem C9_disconnect_clears_session_witness :
    (Update 8 ⟨true, 3, 5, InitialPlayers⟩ 5 ENetEvent.disconnect).state.LocalPlayerId = -1
    ∧ (Update 8 ⟨true, 3, 5, InitialPlayers⟩ 5 ENetEvent.disconnect).state.server = false
    ∧ (Update 8 ⟨true, 3, 5, InitialPlayers⟩ 5 ENetEvent.disconnect).state.Players
        = InitialPlayers
    ∧ (Update 8 ⟨true, 3, 5, InitialPlayers⟩ 5 ENetEvent.disconnect).state.LastInputSend = 5
    ∧ (Update 8 ⟨true, 3, 5, InitialPlayers⟩ 5 ENetEvent.disconnect).destroyed = false
    ∧ (Update 8 ⟨true, 3, 5, InitialPlayers⟩ 5 ENetEvent.disconnect).sent = [] :=
  C9_disconnect_clears_session 8 ⟨true, 3, 5, InitialPlayers⟩ 5 rfl
    (by
      rintro ⟨-, hgt⟩
      norm_num [InputUpdateInterval] at hgt)

/-- C10: the joined-state handlers only touch the table inside
`[0, MAX_PLAYERS)`: the id comes from `ReadByte`, hence is a byte (< 256,
never negative); every slot at an index `i >= MAX_PLAYERS` is left
unchanged by all three handlers (writes are in bounds); and the handlers'
effect on in-range slots does not depend on any slot at or past
`MAX_PLAYERS` (reads are in bounds — in particular `HandleUpdatePlayer`
consults the Active flag only after the bounds test has passed). -/
theorem C10_joined_handlers_in_bounds (m : ℕ) (localId : ℤ) (p : Packet) (off : ℕ)
    (players players2 : ℕ → RemotePlayer) (i j : ℕ)
    (hagree : ∀ k, k < m → players k = players2 k) (hi : m ≤ i) (hj : j < m) :
    (ReadByte p off).1 < 256
    ∧ HandleAddPlayer m localId players p off i = players i
    ∧ HandleRemovePlayer m localId players p off i = players i
    ∧ HandleUpdatePlayer m localId players p off i = players i
    ∧ HandleAddPlayer m localId players p off j = HandleAddPlayer m localId players2 p off j
    ∧ HandleRemovePlayer m localId players p off j
        = HandleRemovePlayer m localId players2 p off j
    ∧ HandleUpdatePlayer m localId players p off j
        = HandleUpdatePlayer m localId players2 p off j := by
  refine ⟨?_, ?_, ?_, ?_, ?_, ?_, ?_⟩
  · simp only [ReadByte]
    split_ifs <;> omega
  · simp only [HandleAddPlayer]
    split_ifs with hg
    · rfl
    · have hrm : (ReadByte p off).1 < m := by
        rcases not_or.mp hg with ⟨h1, -⟩
        omega
      exact if_neg (show i ≠ (ReadByte p off).1 by omega)
  · simp only [HandleRemovePlayer]
    split_ifs with hg
    · rfl
    · have hrm : (ReadByte p off).1 < m := by
        rcases not_or.mp hg with ⟨h1, -⟩
        omega
      exact if_neg (show i ≠ (ReadByte p off).1 by omega)
  · simp only [HandleUpdatePlayer]
    split_ifs with hg
    · rfl
    · have hrm : (ReadByte p off).1 < m := by
        rcases not_or.mp hg with ⟨h1, -⟩
        omega
      exact if_neg (show i ≠ (ReadByte p off).1 by omega)
  · simp only [HandleAddPlayer]
    split_ifs with hg
    · exact hagree j hj
    · dsimp only
      split_ifs with hjr
      · rfl
      · exact hagree j hj
  · simp only [HandleRemovePlayer]
    split_ifs with hg
    · exact hagree j hj
    · dsimp only
      split_ifs with hjr
      · rw [hagree j hj]
      · exact hagree j hj
  · simp only [HandleUpdatePlayer]
    by_cases hmr : m ≤ (ReadByte p off).1
    · rw [if_pos (Or.inl hmr), if_pos (Or.inl hmr)]
      exact hagree j hj
    · rw [hagree (ReadByte p off).1 (by omega)]
      split_ifs with hg
      · exact hagree j hj
      · dsimp only
        split_ifs with hjr
        · rw [hagree j hj]
        · exact hagree j hj

/-- C10 witness: with `MAX_PLAYERS = 8` and an AddPlayer packet for id 3,
the decoded id is a byte, slot 9 is untouched by all three handlers, and
slot 3's handling is the same over two tables that agree below 8. -/
theorem C10_joined_handlers_in_bounds_witness :
    (ReadByte (mkPacket [AddPlayer, 3, 7, 0, 7, 0]) 1).1 < 256
    ∧ HandleAddPlayer 8 0 InitialPlayers (mkPacket [AddPlayer, 3, 7, 0, 7, 0]) 1 9
        = InitialPlayers 9
    ∧ HandleRemovePlayer 8 0 InitialPlayers (mkPacket [AddPlayer, 3, 7, 0, 7, 0]) 1 9
        = InitialPlayers 9
    ∧ HandleUpdatePlayer 8 0 InitialPlayers (mkPacket [AddPlayer, 3, 7, 0, 7, 0]) 1 9
        = InitialPlayers 9
    ∧ HandleAddPlayer 8 0 InitialPlayers (mkPacket [AddPlayer, 3, 7, 0, 7, 0]) 1 3
        = HandleAddPlayer 8 0 InitialPlayers (mkPacket [AddPlayer, 3, 7, 0, 7, 0]) 1 3
    ∧ HandleRemovePlayer 8 0 InitialPlayers (mkPacket [AddPlayer, 3, 7, 0, 7, 0]) 1 3
        = HandleRemovePlayer 8 0 InitialPlayers (mkPacket [AddPlayer, 3, 7, 0, 7, 0]) 1 3
    ∧ HandleUpdatePlayer 8 0 InitialPlayers (mkPacket [AddPlayer, 3, 7, 0, 7, 0]) 1 3
        = HandleUpdatePlayer 8 0 InitialPlayers (mkPacket [AddPlayer, 3, 7, 0, 7, 0]) 1 3 :=
  C10_joined_handlers_in_bounds 8 0 (mkPacket [AddPlayer, 3, 7, 0, 7, 0]) 1
    InitialPlayers InitialPlayers 9 3 (fun k _ => rfl) (by decide) (by decide)

end Networking
